import Mathlib

/-!
Shallow embedding of the learner core of `src/main.rs` and `src/colag.rs`
(a Rust simulation of variational language learners over the CoLAG domain).

Modelling conventions:
* `u16` / `u32` machine integers become `ℕ`; the one place where `u16`
  wrap-around could matter (`set_param`) reduces modulo `2 ^ 16`.
* `f64` weights become `ℚ` (the update rule and the convergence test use
  only `+ - *` and comparisons on small literals).
* The thread-local random generator becomes explicit oracle streams:
  a uniform sample in `[0,1)` for each coin flip (`weighted_coin_flip`
  compares the sample against the weight, as `range.sample(&mut rng) < weight`
  does in the source), and an index choice for `rng.choose`.
* The unbounded resampling loop in `consume_sentence` takes a fuel bound;
  exhausting it is reported as `diverge` (non-termination), which is kept
  distinct from `panic` (the `panic!("not implemented")` arm).
-/

/- Batteries marks rational arithmetic irreducible, which blocks `decide` on
concrete weight computations; restore the default reducibility for this file. -/
attribute [local semireducible] Rat.add Rat.sub Rat.mul Rat.inv

namespace RustLearners

/-- `const NUM_PARAMS: usize = 13` (src/colag.rs). -/
def NUM_PARAMS : ℕ := 13

/-- `const NUM_SENTENCES: u32 = 2_000_000` (src/main.rs). -/
def NUM_SENTENCES : ℕ := 2000000

/-- `const RUNS_PER_LANGUAGE: u8 = 100` (src/main.rs). -/
def RUNS_PER_LANGUAGE : ℕ := 100

/-- `const LEARNING_RATE: f64 = 0.001` (src/main.rs). -/
def LEARNING_RATE : ℚ := 1/1000

/-- `const THRESHOLD: f64 = 0.02` (src/main.rs). -/
def THRESHOLD : ℚ := 2/100

/-- `type Grammar = u16`. -/
abbrev Grammar := ℕ

/-- `type Sentence = u32`. -/
abbrev Sentence := ℕ

/-- `type ParamWeights = [f64; NUM_PARAMS]`, as a total function on indices. -/
abbrev ParamWeights := Fin NUM_PARAMS → ℚ

/-- `struct Domain { language: HashMap<Grammar, HashSet<u32>> }` (src/colag.rs),
with the hash map as an association list (keys looked up with `List.lookup`)
and each hash set as a list of sentences (membership via `List.contains`). -/
structure Domain where
  language : List (Grammar × List Sentence)
deriving DecidableEq

/-- `struct IllegalGrammar ( Grammar )` (src/main.rs). -/
structure IllegalGrammar where
  grammar : Grammar
deriving DecidableEq

/-- `enum Hypothesis` (src/main.rs). -/
inductive Hypothesis where
  | Trigger (grammar : Grammar)
  | Genetic (grammars : List Grammar)
  | RewardOnlyVL (weights : ParamWeights)
  | RewardOnlyRelevantVL (weights : ParamWeights)
deriving DecidableEq

/-- `fn init_weights() -> ParamWeights`: every entry set to `0.5`. -/
def init_weights : ParamWeights := fun _ => 1/2

/-- `Hypothesis::new_reward_only()`. -/
def Hypothesis.new_reward_only : Hypothesis := .RewardOnlyVL init_weights

/-- `Hypothesis::new_reward_only_relevant()`. -/
def Hypothesis.new_reward_only_relevant : Hypothesis := .RewardOnlyRelevantVL init_weights

/-- `Hypothesis::converged` (src/main.rs lines 76-88): for the two variational
variants, scan the weight vector and return `false` on the first weight with
`weight > THRESHOLD && weight < 1.0 - THRESHOLD`, else `true`; all other
variants return `false`. -/
def Hypothesis.converged : Hypothesis → Bool
  | .RewardOnlyVL weights | .RewardOnlyRelevantVL weights =>
      (List.finRange NUM_PARAMS).all fun param =>
        !(decide (THRESHOLD < weights param) && decide (weights param < 1 - THRESHOLD))
  | _ => false

/-- `fn get_param(grammar, param_num)`: `(grammar >> (NUM_PARAMS - param_num - 1)) & 1`. -/
def get_param (grammar : Grammar) (param_num : ℕ) : ℕ :=
  (grammar >>> (NUM_PARAMS - param_num - 1)) &&& 1

/-- `fn set_param(grammar, param_num)`: `grammar + (1 << (NUM_PARAMS - param_num - 1))`,
with `u16` wrap-around made explicit. -/
def set_param (grammar : Grammar) (param_num : ℕ) : ℕ :=
  (grammar + (1 <<< (NUM_PARAMS - param_num - 1))) % 65536

/-- `fn weighted_coin_flip(weight)`: draws `u` uniform in `[0,1)` and returns
`u < weight`; the draw `u` is passed in explicitly as the oracle value. -/
def weighted_coin_flip (u : ℚ) (weight : ℚ) : Bool :=
  decide (u < weight)

/-- `fn random_weighted_grammar(weights)`: starting from grammar `0`, for each
parameter flip a biased coin and `set_param` that bit on success. The oracle
`us` supplies the uniform draw used for each parameter's coin flip. -/
def random_weighted_grammar (weights : ParamWeights) (us : Fin NUM_PARAMS → ℚ) : Grammar :=
  (List.finRange NUM_PARAMS).foldl
    (fun grammar param =>
      if weighted_coin_flip (us param) (weights param) then set_param grammar param.val
      else grammar)
    0

/-- `fn sentence_parses(domain, grammar, sentence)` (src/main.rs lines 104-110). -/
def sentence_parses (domain : Domain) (grammar : Grammar) (sentence : Sentence) :
    Except IllegalGrammar Bool :=
  match domain.language.lookup grammar with
  | some sentences => .ok (sentences.contains sentence)
  | none => .error ⟨grammar⟩

/-- `pub fn reward_weights(weights, grammar, _)` (src/main.rs lines 112-122). -/
def reward_weights (weights : ParamWeights) (grammar : Grammar) (_sentence : Sentence) :
    ParamWeights :=
  fun param =>
    let weight := weights param
    if get_param grammar param.val = 0 then weight - LEARNING_RATE * weight
    else weight + LEARNING_RATE * (1 - weight)

/-- `pub fn reward_relevant_weights(weights, grammar, sentence, _triggers)`
(src/main.rs lines 124-134): body textually identical to `reward_weights`. -/
def reward_relevant_weights (weights : ParamWeights) (grammar : Grammar) (_sentence : Sentence)
    (_triggers : Unit) : ParamWeights :=
  fun param =>
    let weight := weights param
    if get_param grammar param.val = 0 then weight - LEARNING_RATE * weight
    else weight + LEARNING_RATE * (1 - weight)

/-- Outcome of one learning step: `ok` is the returned hypothesis, `panic` the
`panic!("not implemented")` arm, `diverge` fuel exhaustion of the resample loop. -/
inductive StepResult where
  | ok (hypothesis : Hypothesis)
  | panic
  | diverge
deriving DecidableEq

/-- The `loop` inside `consume_sentence`: sample a candidate grammar from the
current weights (one oracle vector per attempt); if `sentence_parses` returns
`Ok(parses)` stop with that candidate and its parse outcome, on `Err` resample. -/
def vl_loop (domain : Domain) (sentence : Sentence) (weights : ParamWeights)
    (us : ℕ → Fin NUM_PARAMS → ℚ) : ℕ → Option (Grammar × Bool)
  | 0 => none
  | fuel + 1 =>
    let grammar := random_weighted_grammar weights (us 0)
    match sentence_parses domain grammar sentence with
    | .ok parses => some (grammar, parses)
    | .error _ => vl_loop domain sentence weights (fun n => us (n + 1)) fuel

/-- `fn consume_sentence(hypothesis, domain, sentence)` (src/main.rs lines 136-166).
In the `RewardOnlyVL` arm the source reassigns
`weights = reward_weights(weights, grammar, sentence)` when the candidate parses.
In the `RewardOnlyRelevantVL` arm the source evaluates
`reward_relevant_weights(weights, grammar, sentence, ())` as a bare expression
statement and discards the returned vector (`weights` there is not `mut` and is
never reassigned), so the hypothesis is rebuilt from the original `weights`;
the discarded call is kept here as a dead `let`. -/
def consume_sentence (hypothesis : Hypothesis) (domain : Domain) (sentence : Sentence)
    (us : ℕ → Fin NUM_PARAMS → ℚ) (fuel : ℕ) : StepResult :=
  match hypothesis with
  | .RewardOnlyVL weights =>
    match vl_loop domain sentence weights us fuel with
    | none => .diverge
    | some (grammar, parses) =>
      .ok (.RewardOnlyVL (if parses then reward_weights weights grammar sentence else weights))
  | .RewardOnlyRelevantVL weights =>
    match vl_loop domain sentence weights us fuel with
    | none => .diverge
    | some (grammar, parses) =>
      let _ := if parses then reward_relevant_weights weights grammar sentence () else weights
      .ok (.RewardOnlyRelevantVL weights)
  | _ => .panic

/-- `rng.choose(&sentences)` (rand 0.4): `None` on an empty slice, otherwise an
element chosen by the generator; the oracle value `i` selects the index. -/
def choose (sentences : List Sentence) (i : ℕ) : Option Sentence :=
  sentences.get? (i % sentences.length)

/-- `struct Report` (src/main.rs lines 186-191). -/
structure Report where
  hypothesis : Hypothesis
  target : Grammar
  converged : Bool
  consumed : ℕ
deriving DecidableEq

/-- Outcome of the simulation loop body: `ok` carries the final hypothesis, the
`converged` flag, the `consumed` counter, and (as instrumentation) the number of
learning steps actually performed; `panic` covers `unwrap`/`expect` failures and
the unimplemented-variant abort; `diverge` is resample-loop fuel exhaustion. -/
inductive LoopState where
  | ok (hypothesis : Hypothesis) (converged : Bool) (consumed : ℕ) (steps : ℕ)
  | panic
  | diverge
deriving DecidableEq

/-- Rust's half-open range `a..b` as the list of its elements. -/
def rustRange (a b : ℕ) : List ℕ :=
  List.range' a (b - a)

/-- The `for i in 1..NUM_SENTENCES` loop of `learn_language`, recursing over the
remaining loop indices: draw a sentence with `rng.choose(..).unwrap()`, apply
`consume_sentence`, test `converged`, and on convergence break with
`consumed = i`; falling off the end leaves `consumed = NUM_SENTENCES` and
`converged = false` as initialised before the loop. The `steps` component
counts one per executed loop iteration. -/
def learn_loop (colag : Domain) (sentences : List Sentence) (si : ℕ → ℕ)
    (us : ℕ → ℕ → Fin NUM_PARAMS → ℚ) (fuel : ℕ) :
    List ℕ → Hypothesis → LoopState
  | [], hypothesis => .ok hypothesis false NUM_SENTENCES 0
  | i :: rest, hypothesis =>
    match choose sentences (si i) with
    | none => .panic
    | some sentence =>
      match consume_sentence hypothesis colag sentence (us i) fuel with
      | .panic => .panic
      | .diverge => .diverge
      | .ok h =>
        if h.converged then .ok h true i 1
        else
          match learn_loop colag sentences si us fuel rest h with
          | .ok h2 c n steps => .ok h2 c n (steps + 1)
          | r => r

/-- Result of `learn_language`: a `Report` (plus the instrumented step count),
or the modelled abnormal exits. -/
inductive LearnResult where
  | ok (report : Report) (steps : ℕ)
  | panic
  | diverge
deriving DecidableEq

/-- `fn learn_language(colag, target, hypothesis)` (src/main.rs lines 193-216):
look up the target's sentence set (`.expect(..)` panics when absent), run the
`for i in 1..NUM_SENTENCES` loop, and build the `Report`. The oracle `si i`
drives `rng.choose` at step `i`; `us i` is the coin-flip oracle stream handed
to `consume_sentence` at step `i`. -/
def learn_language (colag : Domain) (target : Grammar) (hypothesis : Hypothesis)
    (si : ℕ → ℕ) (us : ℕ → ℕ → Fin NUM_PARAMS → ℚ) (fuel : ℕ) : LearnResult :=
  match colag.language.lookup target with
  | none => .panic
  | some sentences =>
    match learn_loop colag sentences si us fuel (rustRange 1 NUM_SENTENCES) hypothesis with
    | .ok h converged consumed steps => .ok ⟨h, target, converged, consumed⟩ steps
    | .panic => .panic
    | .diverge => .diverge

/-- One worker's random state, as oracle streams: `si` the `rng.choose` draws
(indexed by loop step), `us` the uniform coin-flip draws (indexed by loop step,
resample attempt, and parameter). -/
structure RngStream where
  si : ℕ → ℕ
  us : ℕ → ℕ → Fin NUM_PARAMS → ℚ

/-- The `for _ in 0..100` body of one spawned worker in `main`: the trials of
one target, each starting from `Hypothesis::new_reward_only()`. The `rng`
family gives each (target, trial) pair its slice of the worker's random stream. -/
def trial_block (colag : Domain) (target : Grammar) (runs : ℕ)
    (rng : Grammar → ℕ → RngStream) (fuel : ℕ) : List LearnResult :=
  (List.range runs).map fun j =>
    learn_language colag target Hypothesis.new_reward_only (rng target j).si (rng target j).us fuel

/-- `fn main` (src/main.rs lines 218-237), generalised over the target list and
the trials-per-target count: one block of trial results per target, collected in
target order (the source interleaves the workers' printing, which only permutes
this list). -/
def run_scheduler (colag : Domain) (targets : List Grammar) (runs : ℕ)
    (rng : Grammar → ℕ → RngStream) (fuel : ℕ) : List LearnResult :=
  match targets with
  | [] => []
  | t :: rest => trial_block colag t runs rng fuel ++ run_scheduler colag rest runs rng fuel

/-- `let languages = vec![611, 584, 2253, 3856]` in `main`. -/
def languages : List Grammar := [611, 584, 2253, 3856]

/-- The target grammar recorded in a successful trial result. -/
def outTarget : LearnResult → Option Grammar
  | .ok report _ => some report.target
  | _ => none

/-! ### Concrete fixtures used to exercise the definitions -/

/-- A two-language test domain: grammar `0` generates sentence `7`, grammar `1`
generates sentence `9`. -/
def dTest : Domain := ⟨[(0, [7]), (1, [9])]⟩

/-- Coin-flip oracle making every flip succeed (sample `0 < weight` for positive
weights): from all-`0.5` weights this samples grammar `8191 = 0b1111111111111`. -/
def usAll0 : ℕ → Fin NUM_PARAMS → ℚ := fun _ _ => 0

/-- Coin-flip oracle making every flip fail (sample `1 ≥ weight` for weights
`≤ 1`): from all-`0.5` weights this samples grammar `0`. -/
def usAll1 : ℕ → Fin NUM_PARAMS → ℚ := fun _ _ => 1

/-- Coin-flip oracle whose flips succeed only for parameter `12`: from
all-`0.5` weights this samples grammar `1`. -/
def usBit12 : ℕ → Fin NUM_PARAMS → ℚ := fun _ p => if p.val = 12 then 0 else 1

/-- Coin-flip oracle whose first attempt samples the domain-absent grammar
`8191` and whose later attempts sample grammar `0`. -/
def usSkip : ℕ → Fin NUM_PARAMS → ℚ := fun attempt _ => if attempt = 0 then 0 else 1

/-- Oracle family for the scheduler on `dTest`: the worker for target `0`
always samples candidate grammar `1` (present, does not parse sentence `7`),
the worker for target `1` always samples candidate grammar `0` (present, does
not parse sentence `9`); every `rng.choose` draw picks index `0`. -/
def rngTest : Grammar → ℕ → RngStream :=
  fun t _ => if t = 0 then ⟨fun _ => 0, fun _ => usBit12⟩ else ⟨fun _ => 0, fun _ => usAll1⟩

/-! ### Helper lemmas -/

theorem converged_vl_iff (w : ParamWeights) :
    Hypothesis.converged (.RewardOnlyVL w) = true ↔
      ∀ p, w p ≤ THRESHOLD ∨ 1 - THRESHOLD ≤ w p := by
  unfold Hypothesis.converged
  rw [List.all_eq_true]
  constructor
  · intro hAll p
    have h2 := hAll p (List.mem_finRange p)
    by_contra hc
    push_neg at hc
    simp [hc.1, hc.2] at h2
  · intro hBand p _
    rcases hBand p with h1 | h1
    · have : ¬(THRESHOLD < w p) := not_lt.mpr h1
      simp [this]
    · have : ¬(w p < 1 - THRESHOLD) := not_lt.mpr h1
      simp [this]

theorem converged_rvl_iff (w : ParamWeights) :
    Hypothesis.converged (.RewardOnlyRelevantVL w) = true ↔
      ∀ p, w p ≤ THRESHOLD ∨ 1 - THRESHOLD ≤ w p := by
  rw [show Hypothesis.converged (.RewardOnlyRelevantVL w)
        = Hypothesis.converged (.RewardOnlyVL w) from rfl]
  exact converged_vl_iff w

theorem reward_weights_mem_unit (w : ParamWeights) (g : Grammar) (s : Sentence)
    (hw : ∀ p, 0 < w p ∧ w p < 1) :
    ∀ p, 0 < reward_weights w g s p ∧ reward_weights w g s p < 1 := by
  intro p
  obtain ⟨h0, h1⟩ := hw p
  unfold reward_weights LEARNING_RATE
  dsimp only
  split
  · constructor <;> nlinarith
  · constructor <;> nlinarith

theorem foldl_reward_mem_unit (l : List (Grammar × Sentence)) :
    ∀ w : ParamWeights, (∀ p, 0 < w p ∧ w p < 1) →
      ∀ p, 0 < l.foldl (fun w gs => reward_weights w gs.1 gs.2) w p ∧
        l.foldl (fun w gs => reward_weights w gs.1 gs.2) w p < 1 := by
  induction l with
  | nil => intro w hw p; exact hw p
  | cons gs rest ih =>
    intro w hw p
    exact ih (reward_weights w gs.1 gs.2) (reward_weights_mem_unit w gs.1 gs.2 hw) p

/-! ### Claim theorems -/

/-- Claim C1 (code bug): the spec says the reward-only-relevant learner applies
the identical unconditional reward update when the sampled candidate parses the
sentence, but `consume_sentence` discards the vector that
`reward_relevant_weights` returns and rebuilds the hypothesis from the old
weights. Concretely: on the domain `dTest`, sentence `7`, oracle `usAll1`
(which samples candidate grammar `0`, a grammar of `dTest` that parses `7`),
the plain variant returns the rewarded weights while the relevant variant
returns its weights unchanged, and the rewarded weights differ. -/
theorem C1_relevant_update_discarded :
    consume_sentence (.RewardOnlyVL init_weights) dTest 7 usAll1 1
      = .ok (.RewardOnlyVL (reward_weights init_weights 0 7)) ∧
    consume_sentence (.RewardOnlyRelevantVL init_weights) dTest 7 usAll1 1
      = .ok (.RewardOnlyRelevantVL init_weights) ∧
    sentence_parses dTest 0 7 = .ok true ∧
    reward_weights init_weights 0 7 ≠ init_weights :=
  ⟨by decide, by decide, rfl, by decide⟩

/-- Claim C3 (code bug): the resampling part of the claim holds on this input —
the oracle `usSkip` first samples the domain-absent grammar `8191`, which is
consumed locally (with fuel for a single attempt the loop is still running), and
the second sample `0` is the single domain-present candidate evaluated — but the
final conjunct of the claim fails for the reward-only-relevant variant: candidate
`0` parses sentence `7`, yet the returned hypothesis carries the weight vector
unchanged, while the claim requires the reward update to be applied. -/
theorem C3_one_candidate_relevant_unchanged :
    sentence_parses dTest 8191 7 = .error ⟨8191⟩ ∧
    consume_sentence (.RewardOnlyVL init_weights) dTest 7 usSkip 1 = .diverge ∧
    consume_sentence (.RewardOnlyVL init_weights) dTest 7 usSkip 2
      = .ok (.RewardOnlyVL (reward_weights init_weights 0 7)) ∧
    consume_sentence (.RewardOnlyRelevantVL init_weights) dTest 7 usSkip 2
      = .ok (.RewardOnlyRelevantVL init_weights) ∧
    reward_weights init_weights 0 7 ≠ init_weights :=
  ⟨rfl, by decide, by decide, by decide, by decide⟩

/-- Claim C4: `converged` on a variational hypothesis is `true` iff every weight
is `≤ THRESHOLD` or `≥ 1 - THRESHOLD`; on the trigger and genetic variants it is
always `false`; all-`0.5` weights are not converged, all-`0` and all-`1` weights
are converged, and a vector with one weight `0.5` and the rest in `{0, 1}` is
not converged. -/
theorem C4_convergence_check :
    (∀ w : ParamWeights,
      (Hypothesis.converged (.RewardOnlyVL w) = true ↔
        ∀ p, w p ≤ THRESHOLD ∨ 1 - THRESHOLD ≤ w p) ∧
      (Hypothesis.converged (.RewardOnlyRelevantVL w) = true ↔
        ∀ p, w p ≤ THRESHOLD ∨ 1 - THRESHOLD ≤ w p)) ∧
    (∀ g, Hypothesis.converged (.Trigger g) = false) ∧
    (∀ gs, Hypothesis.converged (.Genetic gs) = false) ∧
    Hypothesis.converged (.RewardOnlyVL (fun _ => 1/2)) = false ∧
    Hypothesis.converged (.RewardOnlyVL (fun _ => 0)) = true ∧
    Hypothesis.converged (.RewardOnlyVL (fun _ => 1)) = true ∧
    (∀ (w : ParamWeights) (p0 : Fin NUM_PARAMS), w p0 = 1/2 →
      (∀ p, p ≠ p0 → w p = 0 ∨ w p = 1) →
      Hypothesis.converged (.RewardOnlyVL w) = false) := by
  refine ⟨fun w => ⟨converged_vl_iff w, converged_rvl_iff w⟩,
    fun _ => rfl, fun _ => rfl, by decide, by decide, by decide, ?_⟩
  intro w p0 hp0 _
  by_contra hc
  rw [Bool.not_eq_false] at hc
  have := (converged_vl_iff w).mp hc p0
  rw [hp0] at this
  unfold THRESHOLD at this
  rcases this with h | h <;> norm_num at h

/-- Witness for C4: a concrete weight vector with exactly one weight `0.5`
(at parameter `5`) and the rest `0` is not converged. -/
theorem C4_convergence_check_witness :
    Hypothesis.converged
      (.RewardOnlyVL (fun p => if p.val = 5 then 1/2 else 0)) = false :=
  C4_convergence_check.2.2.2.2.2.2 (fun p => if p.val = 5 then 1/2 else 0)
    ⟨5, by decide⟩ (by decide) (by decide)

/-- Claim C5: the reward update subtracts `LEARNING_RATE * weight` when the
candidate's bit is `0` and adds `LEARNING_RATE * (1 - weight)` when it is `1`;
it strictly increases a weight `< 1` toward bit `1` and strictly decreases a
weight `> 0` toward bit `0`; and starting from all-`0.5` weights, any finite
sequence of reward updates leaves every weight strictly inside `(0, 1)`. -/
theorem C5_reward_update :
    (∀ (w : ParamWeights) (g : Grammar) (s : Sentence) (p : Fin NUM_PARAMS),
      (get_param g p.val = 0 →
        reward_weights w g s p = w p - LEARNING_RATE * w p) ∧
      (get_param g p.val = 1 →
        reward_weights w g s p = w p + LEARNING_RATE * (1 - w p)) ∧
      (get_param g p.val = 1 → w p < 1 → w p < reward_weights w g s p) ∧
      (get_param g p.val = 0 → 0 < w p → reward_weights w g s p < w p)) ∧
    (∀ (l : List (Grammar × Sentence)) (p : Fin NUM_PARAMS),
      0 < l.foldl (fun w gs => reward_weights w gs.1 gs.2) init_weights p ∧
      l.foldl (fun w gs => reward_weights w gs.1 gs.2) init_weights p < 1) := by
  constructor
  · intro w g s p
    refine ⟨fun h0 => ?_, fun h1 => ?_, fun h1 hlt => ?_, fun h0 hgt => ?_⟩
    · unfold reward_weights; dsimp only; rw [if_pos h0]
    · unfold reward_weights; dsimp only
      rw [if_neg (by rw [h1]; exact one_ne_zero)]
    · unfold reward_weights at *; dsimp only
      rw [if_neg (by rw [h1]; exact one_ne_zero)]
      unfold LEARNING_RATE
      nlinarith
    · unfold reward_weights at *; dsimp only
      rw [if_pos h0]
      unfold LEARNING_RATE
      nlinarith
  · intro l p
    exact foldl_reward_mem_unit l init_weights
      (fun _ => by constructor <;> norm_num [init_weights]) p

/-- Witness for C5: concrete instances of the update formula and monotonicity at
grammar `0` (bit `0` at parameter `0`) and grammar `8191` (bit `1` at
parameter `0`), from all-`0.5` weights. -/
theorem C5_reward_update_witness :
    reward_weights init_weights 0 7 ⟨0, by decide⟩
      = init_weights ⟨0, by decide⟩ - LEARNING_RATE * init_weights ⟨0, by decide⟩ ∧
    reward_weights init_weights 8191 7 ⟨0, by decide⟩
      = init_weights ⟨0, by decide⟩ + LEARNING_RATE * (1 - init_weights ⟨0, by decide⟩) ∧
    init_weights ⟨0, by decide⟩ < reward_weights init_weights 8191 7 ⟨0, by decide⟩ ∧
    reward_weights init_weights 0 7 ⟨0, by decide⟩ < init_weights ⟨0, by decide⟩ :=
  ⟨((C5_reward_update.1 init_weights 0 7 ⟨0, by decide⟩).1 (by decide)),
   ((C5_reward_update.1 init_weights 8191 7 ⟨0, by decide⟩).2.1 (by decide)),
   ((C5_reward_update.1 init_weights 8191 7 ⟨0, by decide⟩).2.2.1 (by decide) (by decide)),
   ((C5_reward_update.1 init_weights 0 7 ⟨0, by decide⟩).2.2.2 (by decide) (by decide))⟩

/-- Claim C6: `sentence_parses` returns the illegal-grammar error (carrying the
queried grammar) iff the grammar is not a key of the domain, and otherwise
returns `Ok` of exactly the membership of the sentence in that grammar's
recorded sentence set. -/
theorem C6_sentence_parses :
    ∀ (d : Domain) (g : Grammar) (s : Sentence),
      (sentence_parses d g s = .error ⟨g⟩ ↔ d.language.lookup g = none) ∧
      (∀ ss, d.language.lookup g = some ss →
        sentence_parses d g s = .ok (ss.contains s) ∧ (ss.contains s = true ↔ s ∈ ss)) := by
  intro d g s
  constructor
  · unfold sentence_parses
    rcases h : d.language.lookup g with _ | ss <;> simp [h]
  · intro ss hss
    unfold sentence_parses
    rw [hss]
    exact ⟨rfl, by simp⟩

/-- Witness for C6: on the concrete domain `dTest`, grammar `0` is a key with
sentence list `[7]`, and the query for sentence `7` returns `Ok true`. -/
theorem C6_sentence_parses_witness :
    sentence_parses dTest 0 7 = .ok ([7].contains 7) ∧ ([7].contains 7 = true ↔ 7 ∈ [7]) :=
  (C6_sentence_parses dTest 0 7).2 [7] rfl

theorem set_get_param_aux :
    ∀ (g i : ℕ), g < 65536 → i < NUM_PARAMS → get_param g i = 0 →
      get_param (set_param g i) i = 1 := by
  intro g i hg hi h0
  have hi13 : i < 13 := hi
  clear hi
  unfold get_param NUM_PARAMS at h0
  unfold get_param set_param NUM_PARAMS
  rw [Nat.shiftRight_eq_div_pow, Nat.and_one_is_mod] at h0
  rw [Nat.shiftRight_eq_div_pow, Nat.and_one_is_mod, Nat.shiftLeft_eq]
  interval_cases i <;> norm_num at h0 ⊢ <;> omega

/-- Claim C8: for a parameter index `i < NUM_PARAMS` and a `u16` grammar `g`
whose bit `NUM_PARAMS - i - 1` is clear (read back through `get_param g i = 0`),
setting the parameter by addition and reading it back yields `1`. -/
theorem C8_set_get_param :
    ∀ (g : Grammar) (i : ℕ), g < 65536 → i < NUM_PARAMS → get_param g i = 0 →
      get_param (set_param g i) i = 1 :=
  fun g i => set_get_param_aux g i

/-- Witness for C8: grammar `611` has parameter `0` (bit `12`) clear, and
setting then reading parameter `0` yields `1`. -/
theorem C8_set_get_param_witness :
    get_param (set_param 611 0) 0 = 1 :=
  C8_set_get_param 611 0 (by decide) (by decide) (by decide)

/-- Claim C9: a learning step on the trigger or genetic variant always hits the
`panic!("not implemented")` arm, and a learning step on either variational
variant never does. -/
theorem C9_unimplemented_variants :
    (∀ (g : Grammar) (d : Domain) (s : Sentence) (us : ℕ → Fin NUM_PARAMS → ℚ) (fuel : ℕ),
      consume_sentence (.Trigger g) d s us fuel = .panic) ∧
    (∀ (gs : List Grammar) (d : Domain) (s : Sentence) (us : ℕ → Fin NUM_PARAMS → ℚ) (fuel : ℕ),
      consume_sentence (.Genetic gs) d s us fuel = .panic) ∧
    (∀ (w : ParamWeights) (d : Domain) (s : Sentence) (us : ℕ → Fin NUM_PARAMS → ℚ) (fuel : ℕ),
      consume_sentence (.RewardOnlyVL w) d s us fuel ≠ .panic) ∧
    (∀ (w : ParamWeights) (d : Domain) (s : Sentence) (us : ℕ → Fin NUM_PARAMS → ℚ) (fuel : ℕ),
      consume_sentence (.RewardOnlyRelevantVL w) d s us fuel ≠ .panic) := by
  refine ⟨fun _ _ _ _ _ => rfl, fun _ _ _ _ _ => rfl, ?_, ?_⟩
  · intro w d s us fuel
    unfold consume_sentence
    rcases h : vl_loop d s w us fuel with _ | ⟨g, p⟩ <;> simp [h]
  · intro w d s us fuel
    unfold consume_sentence
    rcases h : vl_loop d s w us fuel with _ | ⟨g, p⟩ <;> simp [h]

theorem learn_loop_unchanged (colag : Domain) (sentences : List Sentence)
    (si : ℕ → ℕ) (us : ℕ → ℕ → Fin NUM_PARAMS → ℚ) (fuel : ℕ) (h : Hypothesis)
    (hconv : h.converged = false)
    (hstep : ∀ i, ∃ s, choose sentences (si i) = some s ∧
      consume_sentence h colag s (us i) fuel = .ok h) :
    ∀ l : List ℕ, learn_loop colag sentences si us fuel l h
      = .ok h false NUM_SENTENCES l.length := by
  intro l
  induction l with
  | nil => rfl
  | cons i rest ih =>
    obtain ⟨s, hch, hcs⟩ := hstep i
    simp only [learn_loop, hch, hcs, hconv, ih, List.length_cons]
    simp

theorem learn_language_eq_of_lookup (colag : Domain) (target : Grammar)
    (h0 : Hypothesis) (si : ℕ → ℕ) (us : ℕ → ℕ → Fin NUM_PARAMS → ℚ) (fuel : ℕ)
    (ss : List Sentence) (hss : colag.language.lookup target = some ss) :
    learn_language colag target h0 si us fuel
      = match learn_loop colag ss si us fuel (rustRange 1 NUM_SENTENCES) h0 with
        | .ok h c n st => .ok ⟨h, target, c, n⟩ st
        | .panic => .panic
        | .diverge => .diverge := by
  unfold learn_language
  rw [hss]

theorem learn_language_dTest0 :
    learn_language dTest 0 Hypothesis.new_reward_only (fun _ => 0) (fun _ => usBit12) 1
      = .ok ⟨Hypothesis.new_reward_only, 0, false, NUM_SENTENCES⟩ (NUM_SENTENCES - 1) := by
  have hrun := learn_loop_unchanged dTest [7] (fun _ => 0) (fun _ => usBit12) 1
    Hypothesis.new_reward_only (by decide)
    (fun i => ⟨7, rfl,
      show consume_sentence Hypothesis.new_reward_only dTest 7 usBit12 1
        = StepResult.ok Hypothesis.new_reward_only by decide⟩)
    (rustRange 1 NUM_SENTENCES)
  rw [show (rustRange 1 NUM_SENTENCES).length = NUM_SENTENCES - 1
      from by simp [rustRange]] at hrun
  rw [learn_language_eq_of_lookup dTest 0 Hypothesis.new_reward_only
    (fun _ => 0) (fun _ => usBit12) 1 [7] rfl, hrun]

theorem learn_language_dTest1 :
    learn_language dTest 1 Hypothesis.new_reward_only (fun _ => 0) (fun _ => usAll1) 1
      = .ok ⟨Hypothesis.new_reward_only, 1, false, NUM_SENTENCES⟩ (NUM_SENTENCES - 1) := by
  have hrun := learn_loop_unchanged dTest [9] (fun _ => 0) (fun _ => usAll1) 1
    Hypothesis.new_reward_only (by decide)
    (fun i => ⟨9, rfl,
      show consume_sentence Hypothesis.new_reward_only dTest 9 usAll1 1
        = StepResult.ok Hypothesis.new_reward_only by decide⟩)
    (rustRange 1 NUM_SENTENCES)
  rw [show (rustRange 1 NUM_SENTENCES).length = NUM_SENTENCES - 1
      from by simp [rustRange]] at hrun
  rw [learn_language_eq_of_lookup dTest 1 Hypothesis.new_reward_only
    (fun _ => 0) (fun _ => usAll1) 1 [9] rfl, hrun]

theorem learn_loop_range_spec (colag : Domain) (sentences : List Sentence)
    (si : ℕ → ℕ) (us : ℕ → ℕ → Fin NUM_PARAMS → ℚ) (fuel : ℕ) :
    ∀ (len a : ℕ) (h h2 : Hypothesis) (c : Bool) (n steps : ℕ),
      learn_loop colag sentences si us fuel (List.range' a len) h = .ok h2 c n steps →
      (c = false → steps = len ∧ n = NUM_SENTENCES) ∧
      (c = true → h2.converged = true ∧ 1 ≤ steps ∧ steps ≤ len ∧ n = a + steps - 1) := by
  intro len
  induction len with
  | zero =>
    intro a h h2 c n steps heq
    rw [List.range'_zero] at heq
    simp only [learn_loop] at heq
    cases heq
    exact ⟨fun _ => ⟨rfl, rfl⟩, fun hc => by simp at hc⟩
  | succ len ih =>
    intro a h h2 c n steps heq
    rw [List.range'_succ] at heq
    simp only [learn_loop] at heq
    split at heq
    next x hch => exact LoopState.noConfusion heq
    next x s hch =>
      split at heq
      next y hcons => exact LoopState.noConfusion heq
      next y hcons => exact LoopState.noConfusion heq
      next y h' hcons =>
        split at heq
        next hcv =>
          injection heq with e1 e2 e3 e4
          refine ⟨fun hc => absurd (e2.trans hc) (by simp),
            fun _ => ⟨e1 ▸ hcv, by omega, by omega, by omega⟩⟩
        next hcv =>
          split at heq
          next x2 h2x cx nx stx hrec =>
            injection heq with e1 e2 e3 e4
            have hih := ih (a + 1) h' h2x cx nx stx hrec
            refine ⟨fun hc => ?_, fun hc => ?_⟩
            · obtain ⟨hsteps, hn⟩ := hih.1 (e2.trans hc)
              exact ⟨by omega, by omega⟩
            · obtain ⟨hcvg, h1, hle, hn⟩ := hih.2 (e2.trans hc)
              exact ⟨e1 ▸ hcvg, by omega, by omega, by omega⟩
          next x1 hno => exact absurd heq (hno h2 c n steps)

/-- Claim C2 (amended): `learn_language` looks up the target\'s sentence set,
then performs up to `NUM_SENTENCES - 1` learning steps (the source loop is
`for i in 1..NUM_SENTENCES`, whose half-open range has `NUM_SENTENCES - 1`
elements, not the `NUM_SENTENCES` steps the claim asserts); it stops early at
the first step `i` whose updated hypothesis is converged, reporting
`consumed = i` equal to the number of steps performed; otherwise it performs
exactly `NUM_SENTENCES - 1` steps and reports non-convergence with
`consumed = NUM_SENTENCES`. -/
theorem C2_simulation_loop_amended :
    ∀ (colag : Domain) (target : Grammar) (h0 : Hypothesis)
      (si : ℕ → ℕ) (us : ℕ → ℕ → Fin NUM_PARAMS → ℚ) (fuel : ℕ)
      (r : Report) (steps : ℕ),
      learn_language colag target h0 si us fuel = .ok r steps →
      r.target = target ∧
      steps ≤ NUM_SENTENCES - 1 ∧
      (r.converged = false → steps = NUM_SENTENCES - 1 ∧ r.consumed = NUM_SENTENCES) ∧
      (r.converged = true → r.hypothesis.converged = true ∧
        1 ≤ r.consumed ∧ r.consumed ≤ NUM_SENTENCES - 1 ∧ steps = r.consumed) := by
  intro colag target h0 si us fuel r steps heq
  rcases hss : colag.language.lookup target with _ | ss
  · unfold learn_language at heq
    rw [hss] at heq
    exact LearnResult.noConfusion (show LearnResult.panic = LearnResult.ok r steps from heq)
  · rw [learn_language_eq_of_lookup colag target h0 si us fuel ss hss] at heq
    rcases hloop : learn_loop colag ss si us fuel (rustRange 1 NUM_SENTENCES) h0
      with ⟨h', c', n', st'⟩ | _ | _
    · rw [hloop] at heq
      have heq2 : LearnResult.ok ⟨h', target, c', n'⟩ st' = .ok r steps := heq
      injection heq2 with er es
      subst er
      rw [show rustRange 1 NUM_SENTENCES = List.range' 1 (NUM_SENTENCES - 1)
          from rfl] at hloop
      have hspec := learn_loop_range_spec colag ss si us fuel
        (NUM_SENTENCES - 1) 1 h0 h' c' n' st' hloop
      refine ⟨rfl, ?_, fun hcf => ?_, fun hct => ?_⟩
      · cases c' with
        | false => have := (hspec.1 rfl).1; omega
        | true => have := (hspec.2 rfl).2.2.1; omega
      · obtain ⟨hsteps, hn⟩ := hspec.1 hcf
        exact ⟨by omega, hn⟩
      · obtain ⟨hcvg, h1, hle, hn⟩ := hspec.2 hct
        refine ⟨hcvg, ?_, ?_, ?_⟩ <;> dsimp only <;> omega
    · rw [hloop] at heq
      exact LearnResult.noConfusion (show LearnResult.panic = LearnResult.ok r steps from heq)
    · rw [hloop] at heq
      exact LearnResult.noConfusion (show LearnResult.diverge = LearnResult.ok r steps from heq)

/-- Claim C2 counterexample: a concrete non-converging run (two-language domain
`dTest`, target `0`, candidate oracle always sampling the non-parsing grammar
`1`) executes the loop body exactly `NUM_SENTENCES - 1 = 1999999` times — not
the `NUM_SENTENCES` steps the claim asserts for a non-converging run — while
still reporting `consumed = NUM_SENTENCES`. -/
theorem C2_step_count_counterexample :
    learn_language dTest 0 Hypothesis.new_reward_only (fun _ => 0) (fun _ => usBit12) 1
      = .ok ⟨Hypothesis.new_reward_only, 0, false, NUM_SENTENCES⟩ (NUM_SENTENCES - 1) ∧
    NUM_SENTENCES - 1 ≠ NUM_SENTENCES ∧
    Report.converged ⟨Hypothesis.new_reward_only, 0, false, NUM_SENTENCES⟩ = false :=
  ⟨learn_language_dTest0, by decide, rfl⟩

/-- Witness for C2: the amended theorem applied to the concrete non-converging
run of `learn_language_dTest0`. -/
theorem C2_simulation_loop_amended_witness :
    (0 : Grammar) = 0 ∧
    NUM_SENTENCES - 1 ≤ NUM_SENTENCES - 1 ∧
    (false = false → NUM_SENTENCES - 1 = NUM_SENTENCES - 1 ∧
      NUM_SENTENCES = NUM_SENTENCES) ∧
    (false = true → Hypothesis.converged Hypothesis.new_reward_only = true ∧
      1 ≤ NUM_SENTENCES ∧ NUM_SENTENCES ≤ NUM_SENTENCES - 1 ∧
      NUM_SENTENCES - 1 = NUM_SENTENCES) :=
  C2_simulation_loop_amended dTest 0 Hypothesis.new_reward_only
    (fun _ => 0) (fun _ => usBit12) 1
    ⟨Hypothesis.new_reward_only, 0, false, NUM_SENTENCES⟩ (NUM_SENTENCES - 1)
    learn_language_dTest0

theorem outTarget_learn_language (colag : Domain) (t : Grammar) (h0 : Hypothesis)
    (si : ℕ → ℕ) (us : ℕ → ℕ → Fin NUM_PARAMS → ℚ) (fuel : ℕ) (g : Grammar) :
    outTarget (learn_language colag t h0 si us fuel) = some g → g = t := by
  intro hg
  rcases hss : colag.language.lookup t with _ | ss
  · unfold learn_language at hg
    rw [hss] at hg
    exact Option.noConfusion (show (none : Option Grammar) = some g from hg)
  · rw [learn_language_eq_of_lookup colag t h0 si us fuel ss hss] at hg
    rcases hloop : learn_loop colag ss si us fuel (rustRange 1 NUM_SENTENCES) h0
      with ⟨h', c', n', st'⟩ | _ | _ <;> rw [hloop] at hg
    · exact (Option.some.inj (show some t = some g from hg)).symm
    · exact Option.noConfusion (show (none : Option Grammar) = some g from hg)
    · exact Option.noConfusion (show (none : Option Grammar) = some g from hg)

theorem trial_list_filterMap (colag : Domain) (t : Grammar)
    (rng : Grammar → ℕ → RngStream) (fuel : ℕ) :
    ∀ js : List ℕ,
      (∀ j ∈ js, (outTarget (learn_language colag t Hypothesis.new_reward_only
        (rng t j).si (rng t j).us fuel)).isSome = true) →
      (js.map fun j => learn_language colag t Hypothesis.new_reward_only
        (rng t j).si (rng t j).us fuel).filterMap outTarget
        = List.replicate js.length t := by
  intro js
  induction js with
  | nil => intro _; rfl
  | cons j rest ih =>
    intro hok
    have hj := hok j (List.mem_cons_self j rest)
    obtain ⟨g, hg⟩ := Option.isSome_iff_exists.mp hj
    have hgt : g = t := outTarget_learn_language colag t _ _ _ fuel g hg
    subst hgt
    rw [List.map_cons, List.filterMap_cons_some hg,
      ih (fun j' hj' => hok j' (List.mem_cons_of_mem j hj')),
      List.length_cons, List.replicate_succ]

theorem run_scheduler_props (colag : Domain) (runs : ℕ)
    (rng : Grammar → ℕ → RngStream) (fuel : ℕ) :
    ∀ targets : List Grammar, targets.Nodup →
      (∀ o ∈ run_scheduler colag targets runs rng fuel, (outTarget o).isSome = true) →
      ((run_scheduler colag targets runs rng fuel).filterMap outTarget).length
        = targets.length * runs ∧
      (∀ g ∈ (run_scheduler colag targets runs rng fuel).filterMap outTarget,
        g ∈ targets) ∧
      (∀ t ∈ targets,
        ((run_scheduler colag targets runs rng fuel).filterMap outTarget).count t
          = runs) := by
  intro targets
  induction targets with
  | nil =>
    intro _ _
    exact ⟨by simp [run_scheduler], by simp [run_scheduler],
      fun t ht => absurd ht (List.not_mem_nil t)⟩
  | cons t rest ih =>
    intro hnd hok
    have hsch : run_scheduler colag (t :: rest) runs rng fuel
        = trial_block colag t runs rng fuel ++ run_scheduler colag rest runs rng fuel :=
      rfl
    have hokblock : ∀ j ∈ List.range runs,
        (outTarget (learn_language colag t Hypothesis.new_reward_only
          (rng t j).si (rng t j).us fuel)).isSome = true := by
      intro j hj
      apply hok
      rw [hsch]
      exact List.mem_append_left _ (List.mem_map_of_mem _ hj)
    have hblock : (trial_block colag t runs rng fuel).filterMap outTarget
        = List.replicate runs t := by
      have hfm := trial_list_filterMap colag t rng fuel (List.range runs) hokblock
      rw [List.length_range] at hfm
      exact hfm
    have hokrest : ∀ o ∈ run_scheduler colag rest runs rng fuel,
        (outTarget o).isSome = true := by
      intro o ho
      exact hok o (by rw [hsch]; exact List.mem_append_right _ ho)
    obtain ⟨ihlen, ihmem, ihcount⟩ := ih (List.Nodup.of_cons hnd) hokrest
    have hfm : (run_scheduler colag (t :: rest) runs rng fuel).filterMap outTarget
        = List.replicate runs t
          ++ (run_scheduler colag rest runs rng fuel).filterMap outTarget := by
      rw [hsch, List.filterMap_append, hblock]
    refine ⟨?_, ?_, ?_⟩
    · rw [hfm, List.length_append, List.length_replicate, ihlen, List.length_cons]
      ring
    · intro g hgmem
      rw [hfm, List.mem_append] at hgmem
      rcases hgmem with hg | hg
      · rw [List.eq_of_mem_replicate hg]
        exact List.mem_cons_self t rest
      · exact List.mem_cons_of_mem t (ihmem g hg)
    · intro t2 ht2
      rw [hfm, List.count_append]
      rcases List.mem_cons.mp ht2 with rfl | ht2
      · rw [List.count_replicate_self]
        have hnotin : t2 ∉ rest := (List.nodup_cons.mp hnd).1
        have hzero : ((run_scheduler colag rest runs rng fuel).filterMap
            outTarget).count t2 = 0 := by
          rw [List.count_eq_zero]
          intro hmem
          exact hnotin (ihmem t2 hmem)
        rw [hzero]
        omega
      · have hne : t ≠ t2 := by
          intro he
          exact (List.nodup_cons.mp hnd).1 (he ▸ ht2)
        rw [List.count_replicate, if_neg (by simpa using hne), ihcount t2 ht2,
          Nat.zero_add]

/-- Claim C7: for any list of N distinct target grammars and M trials per
target, the scheduler of `main` runs every (target, trial) combination from a
fresh `Hypothesis::new_reward_only()` (all weights `0.5`); when every run
completes, exactly N·M reports are produced, every report's target is one of
the requested identifiers, and each target appears in exactly M reports. -/
theorem C7_run_scheduler :
    ∀ (colag : Domain) (targets : List Grammar) (runs : ℕ)
      (rng : Grammar → ℕ → RngStream) (fuel : ℕ),
      targets.Nodup →
      (∀ o ∈ run_scheduler colag targets runs rng fuel, (outTarget o).isSome = true) →
      ((run_scheduler colag targets runs rng fuel).filterMap outTarget).length
        = targets.length * runs ∧
      (∀ g ∈ (run_scheduler colag targets runs rng fuel).filterMap outTarget,
        g ∈ targets) ∧
      (∀ t ∈ targets,
        ((run_scheduler colag targets runs rng fuel).filterMap outTarget).count t
          = runs) ∧
      Hypothesis.new_reward_only = .RewardOnlyVL (fun _ => 1/2) := by
  intro colag targets runs rng fuel hnd hok
  obtain ⟨h1, h2, h3⟩ := run_scheduler_props colag runs rng fuel targets hnd hok
  exact ⟨h1, h2, fun t ht => h3 t ht, rfl⟩

theorem run_scheduler_dTest :
    run_scheduler dTest [0, 1] 1 rngTest 1
      = [.ok ⟨Hypothesis.new_reward_only, 0, false, NUM_SENTENCES⟩ (NUM_SENTENCES - 1),
         .ok ⟨Hypothesis.new_reward_only, 1, false, NUM_SENTENCES⟩ (NUM_SENTENCES - 1)] := by
  have hb0 : trial_block dTest 0 1 rngTest 1
      = [learn_language dTest 0 Hypothesis.new_reward_only
          (fun _ => 0) (fun _ => usBit12) 1] := by
    simp [trial_block, rngTest, List.range_succ, List.range_zero]
  have hb1 : trial_block dTest 1 1 rngTest 1
      = [learn_language dTest 1 Hypothesis.new_reward_only
          (fun _ => 0) (fun _ => usAll1) 1] := by
    simp [trial_block, rngTest, List.range_succ, List.range_zero]
  rw [show run_scheduler dTest [0, 1] 1 rngTest 1
      = trial_block dTest 0 1 rngTest 1 ++ (trial_block dTest 1 1 rngTest 1 ++ [])
      from rfl, hb0, hb1, learn_language_dTest0, learn_language_dTest1]
  rfl

/-- Witness for C7: the scheduler theorem applied to the concrete domain
`dTest` with targets `[0, 1]`, one trial per target, and oracles under which
both runs complete (without converging). -/
theorem C7_run_scheduler_witness :
    ((run_scheduler dTest [0, 1] 1 rngTest 1).filterMap outTarget).length
      = [0, 1].length * 1 ∧
    (∀ g ∈ (run_scheduler dTest [0, 1] 1 rngTest 1).filterMap outTarget,
      g ∈ ([0, 1] : List Grammar)) ∧
    (∀ t ∈ ([0, 1] : List Grammar),
      ((run_scheduler dTest [0, 1] 1 rngTest 1).filterMap outTarget).count t = 1) ∧
    Hypothesis.new_reward_only = .RewardOnlyVL (fun _ => 1/2) :=
  C7_run_scheduler dTest [0, 1] 1 rngTest 1 (by decide)
    (by
      intro o ho
      rw [run_scheduler_dTest] at ho
      simp only [List.mem_cons, List.not_mem_nil, or_false] at ho
      rcases ho with rfl | rfl <;> rfl)

/-- Claim C10: `reward_weights` ignores its sentence argument — for a fixed
weight vector and candidate grammar, any two sentences give the same result. -/
theorem C10_reward_sentence_independent :
    ∀ (w : ParamWeights) (g : Grammar) (s1 s2 : Sentence),
      reward_weights w g s1 = reward_weights w g s2 :=
  fun _ _ _ _ => rfl

end RustLearners
